import Mathlib

/-!
Verification of the post-training quantization driver (`quantize.py`).

The driver itself (argument handling, the parameter-quantization loop, the
activation-quantization gate, hashing of the run descriptor, result
persistence) is embedded from `src/quantize.py`.  The tensor-level
quantization library (`utee.quant`) and the generic helpers (`utee.misc`,
`utee.selector`) are not part of the repository snapshot; where a claim
needs them they are modelled from the specification and marked as such.

Tensors are embedded as lists of rationals (value semantics, exact
arithmetic standing in for floating point).
-/

/-- A tensor: a flat list of rational element values. -/
abbrev Tensor := List ℚ

/-- Maximum of a list of rationals, 0 for the empty list. -/
def listMax : List ℚ → ℚ
  | [] => 0
  | x :: xs => xs.foldl max x

/-- Minimum of a list of rationals, 0 for the empty list. -/
def listMin : List ℚ → ℚ
  | [] => 0
  | x :: xs => xs.foldl min x

/-- Largest absolute element value of a tensor. -/
def maxAbs (v : Tensor) : ℚ := listMax (v.map (fun x => |x|))

/-- Fraction of elements of a tensor whose magnitude strictly exceeds `t`. -/
def fracExceeding (v : Tensor) (t : ℚ) : ℚ :=
  ((v.countP (fun x => decide (t < |x|)) : ℚ)) / ((v.length : ℚ))

/-- Modelled from the spec: `utee.quant.compute_integral_part` is not under
`src/`.  Per spec §4.1 the range estimator returns the minimal number of
integer bits `b` such that the fraction of elements whose magnitude exceeds
`2^b` is at most the overflow rate; an all-zero tensor yields 0 and the
search is bounded (here over `b ∈ [-32, 32]`, mirroring the bounded
bisection the spec prescribes). -/
def compute_integral_part (v : Tensor) (overflow_rate : ℚ) : ℤ :=
  if maxAbs v = 0 then 0
  else
    match (List.range 65).find?
        (fun i => decide (fracExceeding v ((2 : ℚ) ^ ((i : ℤ) - 32)) ≤ overflow_rate)) with
    | some i => (i : ℤ) - 32
    | none => 32

/-- Modelled from the spec: `utee.quant.linear_quantize` is not under `src/`.
Per spec §4.2 the linear scheme multiplies by `2^sf`, rounds to the nearest
integer, clamps to the signed integer range representable in `bits` bits and
divides back by `2^sf`; `bits ≥ 32` bypasses quantization entirely. -/
def linear_quantize (v : Tensor) (sf : ℤ) (bits : ℤ) : Tensor :=
  if 32 ≤ bits then v
  else
    let bound : ℚ := (2 : ℚ) ^ (bits - 1)
    v.map (fun x =>
      (max (-bound) (min (bound - 1) ((round (x * (2 : ℚ) ^ sf) : ℤ) : ℚ))) / (2 : ℚ) ^ sf)

/-- Modelled from the spec: `utee.quant.min_max_quantize` is not under
`src/`.  Per spec §4.2 the min-max scheme maps `[min, max]` linearly onto
`2^bits` uniform levels, rounds, and maps back; `bits ≥ 32` bypasses; a
degenerate range (max ≤ min) is tolerated by returning the input, never a
division by zero. -/
def min_max_quantize (v : Tensor) (bits : ℤ) : Tensor :=
  if 32 ≤ bits then v
  else
    let mn := listMin v
    let mx := listMax v
    if mx ≤ mn then v
    else
      let steps : ℚ := (2 : ℚ) ^ bits - 1
      v.map (fun x =>
        mn + ((round ((x - mn) * steps / (mx - mn)) : ℤ) : ℚ) * (mx - mn) / steps)

/-- Sign of a rational, as a rational. -/
def sgn (x : ℚ) : ℚ := if x < 0 then -1 else if x = 0 then 0 else 1

/-- Small additive epsilon guarding logarithms of zero magnitudes. -/
def logEps : ℚ := 1 / 1048576

/-- Modelled from the spec: `utee.quant.log_minmax_quantize` is not under
`src/`.  Per spec §4.2 the scheme quantizes `log2(|x| + ε)` uniformly as
min-max with the sign preserved separately and reconstructs
`sign * 2^(dequantized log-magnitude)`; an integer-valued base-2 logarithm
stands in for the real one (no claim depends on the transcendental
internals); `bits ≥ 32` bypasses. -/
def log_minmax_quantize (v : Tensor) (bits : ℤ) : Tensor :=
  if 32 ≤ bits then v
  else
    let mags := v.map (fun x => ((Int.log 2 (|x| + logEps) : ℤ) : ℚ))
    let qmags := min_max_quantize mags bits
    (v.zip qmags).map (fun p => sgn p.1 * (2 : ℚ) ^ (round p.2 : ℤ))

/-- Rational stand-in for the `tanh` squashing of spec §4.2: an odd,
strictly increasing map of ℚ onto (-1, 1). -/
def tanhQ (x : ℚ) : ℚ := x / (1 + |x|)

/-- Inverse of `tanhQ` on (-1, 1). -/
def atanhQ (y : ℚ) : ℚ := y / (1 - |y|)

/-- Modelled from the spec: `utee.quant.tanh_quantize` is not under `src/`.
Per spec §4.2 the scheme squashes the tensor into a bounded domain, applies
min-max style uniform quantization inside it and inverts the squashing;
`bits ≥ 32` bypasses.  A rational squashing stands in for `tanh` (no claim
depends on the transcendental internals). -/
def tanh_quantize (v : Tensor) (bits : ℤ) : Tensor :=
  if 32 ≤ bits then v
  else (min_max_quantize (v.map tanhQ) bits).map atanhQ

/-- The four quantization method names accepted by the driver
(`linear|minmax|log|tanh`). -/
inductive QuantMethod
  | linear
  | minmax
  | log
  | tanh
  deriving DecidableEq

/-- The driver configuration relevant to quantization: method, bit-width
for regular parameters, bit-width for running statistics, bit-width for
layer outputs, overflow rate and calibration sample count
(`quantize.py` argument block). -/
structure QuantArgs where
  quant_method : QuantMethod
  param_bits : ℤ
  bn_bits : ℤ
  fwd_bits : ℤ
  overflow_rate : ℚ
  n_sample : ℤ
  deriving DecidableEq

/-- Observable log events emitted by the parameter loop: `print("Ignoring
{k}")` for a skipped entry and `print(k, bits)` for a quantized one
(`quantize.py` lines 84 and 104). -/
inductive LogEvent
  | ignoring (name : String)
  | quantized (name : String) (bits : ℤ)
  deriving DecidableEq

/-- Classification test of `quantize.py` line 82: `'running' in k`,
i.e. the characters of `"running"` occur contiguously in `k`. -/
def isRunning (k : String) : Bool := decide ("running".data <:+: k.data)

/-- The bit-width the loop selects for an entry named `k`
(`quantize.py` lines 81-90): `bn_bits` for running statistics,
`param_bits` otherwise. -/
def entryBits (args : QuantArgs) (k : String) : ℤ :=
  if isRunning k then args.bn_bits else args.param_bits

/-- The method dispatch of `quantize.py` lines 92-102: linear computes
`sf = bits - 1 - compute_integral_part(v, overflow_rate)` and calls
`linear_quantize(v, sf, bits)`; the other branches call their scheme
directly. -/
def quantizeTensor (method : QuantMethod) (v : Tensor) (bits : ℤ) (overflow_rate : ℚ) : Tensor :=
  match method with
  | .linear => linear_quantize v (bits - 1 - compute_integral_part v overflow_rate) bits
  | .log => log_minmax_quantize v bits
  | .minmax => min_max_quantize v bits
  | .tanh => tanh_quantize v bits

/-- One iteration of the parameter loop (`quantize.py` lines 81-108) on the
entry `(k, v)`: a running-statistic entry with `bn_bits ≥ 32` is copied
unchanged with an `Ignoring` event; otherwise the entry's tensor is passed
through the selected method at the class's bit-width with a `quantized`
event. -/
def quantStep (args : QuantArgs) (k : String) (v : Tensor) : (String × Tensor) × List LogEvent :=
  if isRunning k then
    if 32 ≤ args.bn_bits then ((k, v), [LogEvent.ignoring k])
    else ((k, quantizeTensor args.quant_method v args.bn_bits args.overflow_rate),
          [LogEvent.quantized k args.bn_bits])
  else ((k, quantizeTensor args.quant_method v args.param_bits args.overflow_rate),
        [LogEvent.quantized k args.param_bits])

/-- The parameter loop of `quantize.py` lines 78-108: iterates the state
dictionary in order, building `state_dict_quant` entry by entry and
collecting the printed events. -/
def quantizeLoop (args : QuantArgs) : List (String × Tensor) → List (String × Tensor) × List LogEvent
  | [] => ([], [])
  | (k, v) :: rest =>
    ((quantStep args k v).1 :: (quantizeLoop args rest).1,
     (quantStep args k v).2 ++ (quantizeLoop args rest).2)

/-- The guarded parameter-quantization pass of `quantize.py` lines 77-109:
the loop runs only when `param_bits < 32`; otherwise the state dictionary
is left untouched and no per-entry event is emitted. -/
def quantizeParams (args : QuantArgs) (sd : List (String × Tensor)) :
    List (String × Tensor) × List LogEvent :=
  if args.param_bits < 32 then quantizeLoop args sd else (sd, [])

/-- First-match lookup in a state dictionary, by entry name. -/
def lookupT (k : String) : List (String × Tensor) → Option Tensor
  | [] => none
  | e :: rest => if e.1 = k then some e.2 else lookupT k rest

/-- A model: either a bare network carrying its state dictionary, or one
wrapped for activation quantization. -/
inductive Model
  | base (state_dict : List (String × Tensor))
  | quantWrapped (inner : Model) (bits : ℤ) (overflow_rate : ℚ) (counter : ℤ)
      (method : QuantMethod)
  deriving DecidableEq

/-- Modelled from the spec: `utee.quant.duplicate_model_with_quant` is not
under `src/`.  Per spec §4.4 it returns the model wrapped for activation
quantization with the given bit-width, overflow rate, calibration budget
and method. -/
def duplicate_model_with_quant (m : Model) (bits : ℤ) (overflow_rate : ℚ)
    (counter : ℤ) (method : QuantMethod) : Model :=
  Model.quantWrapped m bits overflow_rate counter method

/-- The forward-activation gate of `quantize.py` lines 112-114: the model
is wrapped only when `fwd_bits < 32`. -/
def applyActivationQuant (args : QuantArgs) (m : Model) : Model :=
  if args.fwd_bits < 32 then
    duplicate_model_with_quant m args.fwd_bits args.overflow_rate args.n_sample args.quant_method
  else m

/-- The method names accepted by the assert of `quantize.py` line 61. -/
def validMethodNames : List String := ["linear", "minmax", "log", "tanh"]

/-- The only configuration validation the driver performs before any tensor
work: `assert args.quant_method in ['linear', 'minmax', 'log', 'tanh']`
(`quantize.py` line 61). -/
def methodAssertPasses (quant_method : String) : Bool :=
  validMethodNames.contains quant_method

/-- The input-size override of `quantize.py` line 60:
`299 if 'inception' in args.type else args.input_size`. -/
def resolveInputSize (type : String) (input_size : ℤ) : ℤ :=
  if "inception".data <:+: type.data then 299 else input_size

/-- The input sizes passed to the dataset fetcher: the calibration fetch at
line 116 (made only when the model was wrapped, `fwd_bits < 32`) and the
final evaluation fetch at line 122, both with the resolved input size. -/
def datasetFetchSizes (type : String) (input_size fwd_bits : ℤ) : List ℤ :=
  (if fwd_bits < 32 then [resolveInputSize type input_size] else []) ++
    [resolveInputSize type input_size]

/-- Big-endian byte expansion: the `k` lowest bytes of `n`, most significant
first. -/
def beBytes : Nat → Nat → List Nat
  | 0, _ => []
  | k + 1, n => beBytes k (n / 256) ++ [n % 256]

/-- UTF-8 encoding of a single code point (the encoding `str.encode()`
applies in `create_filename_hash_suffix`). -/
def utf8EncodeChar (n : Nat) : List Nat :=
  if n < 128 then [n]
  else if n < 2048 then [192 + n / 64, 128 + n % 64]
  else if n < 65536 then [224 + n / 4096, 128 + (n / 64) % 64, 128 + n % 64]
  else [240 + n / 262144, 128 + (n / 4096) % 64, 128 + (n / 64) % 64, 128 + n % 64]

/-- UTF-8 encoding of a string as a list of bytes. -/
def utf8Encode (s : String) : List Nat :=
  (s.data.map (fun c => utf8EncodeChar c.toNat)).flatten

/-- Addition of 32-bit words modulo `2^32`. -/
def wadd (a b : Nat) : Nat := (a + b) % 4294967296

/-- Right rotation of a 32-bit word by `n` positions. -/
def rotr (n x : Nat) : Nat := ((x >>> n) ||| (x <<< (32 - n))) % 4294967296

/-- SHA-256 choice function. -/
def shaCh (x y z : Nat) : Nat := (x &&& y) ^^^ ((x ^^^ 4294967295) &&& z)

/-- SHA-256 majority function. -/
def shaMaj (x y z : Nat) : Nat := (x &&& y) ^^^ (x &&& z) ^^^ (y &&& z)

/-- SHA-256 big sigma 0. -/
def bsig0 (x : Nat) : Nat := rotr 2 x ^^^ rotr 13 x ^^^ rotr 22 x

/-- SHA-256 big sigma 1. -/
def bsig1 (x : Nat) : Nat := rotr 6 x ^^^ rotr 11 x ^^^ rotr 25 x

/-- SHA-256 small sigma 0. -/
def ssig0 (x : Nat) : Nat := rotr 7 x ^^^ rotr 18 x ^^^ (x >>> 3)

/-- SHA-256 small sigma 1. -/
def ssig1 (x : Nat) : Nat := rotr 17 x ^^^ rotr 19 x ^^^ (x >>> 10)

/-- The 64 SHA-256 round constants of FIPS 180-4 (fractional parts of the
cube roots of the first 64 primes), written in decimal. -/
def shaK : List Nat :=
  [1116352408, 1899447441, 3049323471, 3921009573, 961987163, 1508970993,
   2453635748, 2870763221, 3624381080, 310598401, 607225278, 1426881987,
   1925078388, 2162078206, 2614888103, 3248222580, 3835390401, 4022224774,
   264347078, 604807628, 770255983, 1249150122, 1555081692, 1996064986,
   2554220882, 2821834349, 2952996808, 3210313671, 3336571891, 3584528711,
   113926993, 338241895, 666307205, 773529912, 1294757372, 1396182291,
   1695183700, 1986661051, 2177026350, 2456956037, 2730485921, 2820302411,
   3259730800, 3345764771, 3516065817, 3600352804, 4094571909, 275423344,
   430227734, 506948616, 659060556, 883997877, 958139571, 1322822218,
   1537002063, 1747873779, 1955562222, 2024104815, 2227730452, 2361852424,
   2428436474, 2756734187, 3204031479, 3329325298]

/-- The SHA-256 initial hash value of FIPS 180-4 (fractional parts of the
square roots of the first 8 primes), written in decimal. -/
def shaH0 : List Nat :=
  [1779033703, 3144134277, 1013904242, 2773480762,
   1359893119, 2600822924, 528734635, 1541459225]

/-- SHA-256 message padding: append `0x80`, zero bytes up to 56 mod 64, and
the 8-byte big-endian bit length. -/
def padMessage (msg : List Nat) : List Nat :=
  let len := msg.length
  let zeros := (119 - len % 64) % 64
  msg ++ [128] ++ List.replicate zeros 0 ++ beBytes 8 (8 * len)

/-- Pack a byte list into 32-bit big-endian words. -/
def bytesToWords : List Nat → List Nat
  | b0 :: b1 :: b2 :: b3 :: rest =>
    (b0 * 16777216 + b1 * 65536 + b2 * 256 + b3) :: bytesToWords rest
  | _ => []

/-- Split a word list into 16-word blocks (fuel-driven). -/
def chunksAux : Nat → List Nat → List (List Nat)
  | 0, _ => []
  | _ + 1, [] => []
  | fuel + 1, ws => ws.take 16 :: chunksAux fuel (ws.drop 16)

/-- Split a word list into 16-word blocks. -/
def chunks (ws : List Nat) : List (List Nat) := chunksAux ws.length ws

/-- Extend a 16-word block to the 64-word SHA-256 message schedule. -/
def extendSchedule : Nat → List Nat → List Nat
  | 0, ws => ws
  | fuel + 1, ws =>
    let t := ws.length
    let w := (ssig1 (ws.getD (t - 2) 0) + ws.getD (t - 7) 0 +
              ssig0 (ws.getD (t - 15) 0) + ws.getD (t - 16) 0) % 4294967296
    extendSchedule fuel (ws ++ [w])

/-- The eight-word SHA-256 working state. -/
structure Hash8 where
  a : Nat
  b : Nat
  c : Nat
  d : Nat
  e : Nat
  f : Nat
  g : Nat
  h : Nat
  deriving DecidableEq

/-- One SHA-256 compression round with round constant `k` and schedule word
`w`. -/
def shaRound (s : Hash8) (kw : Nat × Nat) : Hash8 :=
  let t1 := (s.h + bsig1 s.e + shaCh s.e s.f s.g + kw.1 + kw.2) % 4294967296
  let t2 := (bsig0 s.a + shaMaj s.a s.b s.c) % 4294967296
  ⟨(t1 + t2) % 4294967296, s.a, s.b, s.c, wadd s.d t1, s.e, s.f, s.g⟩

/-- Compress one 16-word block into the running hash state. -/
def compressBlock (st : List Nat) (block : List Nat) : List Nat :=
  let ws := extendSchedule 48 block
  let s0 : Hash8 := ⟨st.getD 0 0, st.getD 1 0, st.getD 2 0, st.getD 3 0,
                     st.getD 4 0, st.getD 5 0, st.getD 6 0, st.getD 7 0⟩
  let s := (shaK.zip ws).foldl shaRound s0
  [wadd (st.getD 0 0) s.a, wadd (st.getD 1 0) s.b, wadd (st.getD 2 0) s.c,
   wadd (st.getD 3 0) s.d, wadd (st.getD 4 0) s.e, wadd (st.getD 5 0) s.f,
   wadd (st.getD 6 0) s.g, wadd (st.getD 7 0) s.h]

/-- SHA-256 of a byte list, as the eight 32-bit words of the digest. -/
def sha256Words (msg : List Nat) : List Nat :=
  (chunks (bytesToWords (padMessage msg))).foldl compressBlock shaH0

/-- Lower-case hexadecimal digit for a value below 16. -/
def hexDigit (n : Nat) : Char :=
  if n < 10 then Char.ofNat (48 + n) else Char.ofNat (87 + n)

/-- The `k` lowest hexadecimal digits of `n`, most significant first. -/
def hexAux : Nat → Nat → List Char
  | 0, _ => []
  | k + 1, n => hexAux k (n / 16) ++ [hexDigit (n % 16)]

/-- The 64-character lower-case hexadecimal SHA-256 digest of a byte list
(the embedding of `hashlib.sha256(...).hexdigest()`). -/
def sha256_hexdigest (msg : List Nat) : String :=
  String.mk (((sha256Words msg).map (hexAux 8)).flatten)

/-- `create_filename_hash_suffix` from `quantize.py` lines 13-15: the first
12 characters of the SHA-256 hex digest of the UTF-8 encoded input. -/
def create_filename_hash_suffix (content : String) : String :=
  String.mk ((sha256_hexdigest (utf8Encode content)).data.take 12)

/-- The quantized-model filename of `quantize.py` line 144:
`{type}-quantized-{hash}.pth`. -/
def quantizedModelName (type res_str : String) : String :=
  type ++ "-quantized-" ++ create_filename_hash_suffix res_str ++ ".pth"

/-- The checkpoint path of `quantize.py` line 145: the filename joined onto
the model root. -/
def quantizedModelPath (model_root type res_str : String) : String :=
  model_root ++ "/" ++ quantizedModelName type res_str

/-- The record line appended to `acc1_acc5.txt` (`quantize.py` lines
155-157): the run descriptor, a comma, then the checkpoint path when the
model was saved and `"not saved"` otherwise. -/
def recordLine (res_str path : String) (save : Bool) : String :=
  res_str ++ ", " ++ (if save then path else "not saved") ++ "\n"

/-- The persistence tail of `main` (`quantize.py` lines 143-157): the
checkpoint is written only under the `save_quantized_model` flag, and
exactly one record line is appended to `acc1_acc5.txt`. -/
def finalizeRun (model_root type res_str : String) (save : Bool) :
    Option String × List String :=
  let path := quantizedModelPath model_root type res_str
  (if save then some path else none, [recordLine res_str path save])

set_option maxRecDepth 100000

/-- The entry name is never changed by a loop iteration. -/
theorem quantStep_key (args : QuantArgs) (k : String) (v : Tensor) :
    (quantStep args k v).1.1 = k := by
  unfold quantStep
  split
  · split <;> rfl
  · rfl

/-- When the selected bit-width is below 32 the loop iteration passes the
tensor through the dispatched method at that bit-width and logs the entry. -/
theorem quantStep_of_bits_lt (args : QuantArgs) (k : String) (v : Tensor)
    (hb : entryBits args k < 32) :
    quantStep args k v =
      ((k, quantizeTensor args.quant_method v (entryBits args k) args.overflow_rate),
        [LogEvent.quantized k (entryBits args k)]) := by
  unfold entryBits at hb ⊢
  cases hik : isRunning k with
  | true =>
    simp only [hik, if_true] at hb ⊢
    have hn : ¬ (32 ≤ args.bn_bits) := by omega
    simp [quantStep, hik, hn]
  | false =>
    simp only [hik, if_false] at hb ⊢
    simp [quantStep, hik]

/-- A running-statistic entry with `bn_bits ≥ 32` is copied unchanged with
an `Ignoring` event. -/
theorem quantStep_skip (args : QuantArgs) (k : String) (v : Tensor)
    (hr : isRunning k = true) (hbn : 32 ≤ args.bn_bits) :
    quantStep args k v = ((k, v), [LogEvent.ignoring k]) := by
  simp [quantStep, hr, hbn]

/-- Every quantization scheme, and hence the dispatch, returns its input
unchanged at a bit-width of 32 or more. -/
theorem quantizeTensor_bypass (method : QuantMethod) (v : Tensor) (bits : ℤ) (r : ℚ)
    (hb : 32 ≤ bits) : quantizeTensor method v bits r = v := by
  cases method <;>
    simp [quantizeTensor, linear_quantize, log_minmax_quantize, min_max_quantize,
      tanh_quantize, hb]

/-- The loop preserves the entry names in order. -/
theorem quantizeLoop_keys (args : QuantArgs) (sd : List (String × Tensor)) :
    (quantizeLoop args sd).1.map Prod.fst = sd.map Prod.fst := by
  induction sd with
  | nil => rfl
  | cons e rest ih =>
    obtain ⟨k, v⟩ := e
    simp [quantizeLoop, quantStep_key, ih]

/-- Looking up an entry of the input in the loop's output yields the
tensor produced by the loop iteration on that entry. -/
theorem lookupT_quantizeLoop (args : QuantArgs) (sd : List (String × Tensor))
    (k : String) (v : Tensor) (hnd : (sd.map Prod.fst).Nodup) (hmem : (k, v) ∈ sd) :
    lookupT k (quantizeLoop args sd).1 = some (quantStep args k v).1.2 := by
  induction sd with
  | nil => cases hmem
  | cons e rest ih =>
    obtain ⟨k1, v1⟩ := e
    simp only [List.map_cons, List.nodup_cons] at hnd
    rcases List.mem_cons.mp hmem with heq | hmem2
    · injection heq with h1 h2
      subst h1
      subst h2
      simp [quantizeLoop, lookupT, quantStep_key]
    · have hk : k1 ≠ k := by
        intro hcontra
        subst hcontra
        exact hnd.1 (List.mem_map_of_mem Prod.fst hmem2)
      simp only [quantizeLoop, lookupT, quantStep_key, if_neg hk]
      exact ih hnd.2 hmem2

/-- Events of a loop iteration on an entry of the input appear among the
loop's events. -/
theorem quantStep_events_sub (args : QuantArgs) (sd : List (String × Tensor))
    (k : String) (v : Tensor) (hmem : (k, v) ∈ sd) (e : LogEvent)
    (he : e ∈ (quantStep args k v).2) : e ∈ (quantizeLoop args sd).2 := by
  induction sd with
  | nil => cases hmem
  | cons p rest ih =>
    obtain ⟨k1, v1⟩ := p
    simp only [quantizeLoop, List.mem_append]
    rcases List.mem_cons.mp hmem with heq | hmem2
    · injection heq with h1 h2
      subst h1
      subst h2
      exact Or.inl he
    · exact Or.inr (ih hmem2)

/-- Claim C3: the parameter map produced by the quantization pass has
exactly the same names, in the same order, as the input map; only tensor
values change. -/
theorem quantizeParams_names_preserved (args : QuantArgs) (sd : List (String × Tensor)) :
    (quantizeParams args sd).1.map Prod.fst = sd.map Prod.fst := by
  unfold quantizeParams
  split
  · exact quantizeLoop_keys args sd
  · rfl

/-- Claim C4: a configured bit-width of 32 or more is a do-not-quantize
sentinel, each gate independently: whenever `param_bits ≥ 32` the parameter
map passes through unchanged (whatever `fwd_bits` is), and whenever
`fwd_bits ≥ 32` the model is not wrapped for activation quantization
(whatever `param_bits` is). -/
theorem bits32_sentinel_passthrough (args : QuantArgs) (sd : List (String × Tensor))
    (m : Model) :
    (32 ≤ args.param_bits → (quantizeParams args sd).1 = sd) ∧
      (32 ≤ args.fwd_bits → applyActivationQuant args m = m) := by
  constructor
  · intro hp
    unfold quantizeParams
    rw [if_neg (by omega)]
  · intro hf
    unfold applyActivationQuant
    rw [if_neg (by omega)]

/-- Concrete instances of the `bits ≥ 32` sentinel behavior, one per gate:
the parameter map is untouched at `param_bits = 32` even though
`fwd_bits = 8`, and the model is unwrapped at `fwd_bits = 33` even though
`param_bits = 8`. -/
theorem bits32_sentinel_passthrough_witness :
    (quantizeParams ⟨QuantMethod.linear, 32, 8, 8, 0, 20⟩ [("weight", [1/3])]).1 =
      [("weight", [1/3])] ∧
    applyActivationQuant ⟨QuantMethod.linear, 8, 8, 33, 0, 20⟩
        (Model.base [("weight", [1/3])]) =
      Model.base [("weight", [1/3])] :=
  ⟨(bits32_sentinel_passthrough ⟨QuantMethod.linear, 32, 8, 8, 0, 20⟩
      [("weight", [1/3])] (Model.base [("weight", [1/3])])).1 (by decide),
   (bits32_sentinel_passthrough ⟨QuantMethod.linear, 8, 8, 33, 0, 20⟩
      [("weight", [1/3])] (Model.base [("weight", [1/3])])).2 (by decide)⟩

/-- Claim C1, as stated, is false on the code: it is not the case that
every entry whose class has a configured bit-width below 32 is passed
through the selected scheme — when `param_bits ≥ 32` the whole pass is
skipped, so a running-statistic entry is left unquantized even though
`bn_bits < 32`. -/
theorem paramPass_not_unconditional :
    ¬ (∀ (args : QuantArgs) (sd : List (String × Tensor)) (k : String) (v : Tensor),
        (sd.map Prod.fst).Nodup → (k, v) ∈ sd → entryBits args k < 32 →
        lookupT k (quantizeParams args sd).1 =
          some (quantizeTensor args.quant_method v (entryBits args k) args.overflow_rate)) := by
  intro h
  exact absurd
    (h ⟨QuantMethod.linear, 32, 8, 32, 0, 20⟩ [("bn.running_mean", [1/3])]
      "bn.running_mean" [1/3] (by decide) (by with_unfolding_all decide)
      (by with_unfolding_all decide))
    (by with_unfolding_all decide)

/-- Claim C1 (amended): whenever the pass actually runs (`param_bits < 32`)
and the entry's class has a configured bit-width below 32, the entry's
tensor is passed through the selected scheme at the bit-width of its
class. -/
theorem paramPass_quantizes_when_enabled (args : QuantArgs) (sd : List (String × Tensor))
    (k : String) (v : Tensor) (hnd : (sd.map Prod.fst).Nodup) (hmem : (k, v) ∈ sd)
    (hp : args.param_bits < 32) (hb : entryBits args k < 32) :
    lookupT k (quantizeParams args sd).1 =
      some (quantizeTensor args.quant_method v (entryBits args k) args.overflow_rate) := by
  unfold quantizeParams
  rw [if_pos hp, lookupT_quantizeLoop args sd k v hnd hmem, quantStep_of_bits_lt args k v hb]

/-- Concrete instance of the amended claim C1. -/
theorem paramPass_quantizes_when_enabled_witness :
    lookupT "weight"
        (quantizeParams ⟨QuantMethod.linear, 8, 6, 32, 0, 20⟩ [("weight", [1/3])]).1 =
      some (quantizeTensor QuantMethod.linear [1/3]
        (entryBits ⟨QuantMethod.linear, 8, 6, 32, 0, 20⟩ "weight") 0) :=
  paramPass_quantizes_when_enabled ⟨QuantMethod.linear, 8, 6, 32, 0, 20⟩
    [("weight", [1/3])] "weight" [1/3] (by decide) (by with_unfolding_all decide)
    (by decide) (by with_unfolding_all decide)

/-- Claim C2: within the parameter pass, an entry whose name contains the
substring `"running"` is quantized with the `bn_bits` bit-width and every
other entry with the `param_bits` bit-width (a bit-width of 32 or more
meaning the identity quantization, per the sentinel). -/
theorem running_substring_selects_bn_bits (args : QuantArgs) (sd : List (String × Tensor))
    (k : String) (v : Tensor) (hnd : (sd.map Prod.fst).Nodup) (hmem : (k, v) ∈ sd)
    (hp : args.param_bits < 32) :
    lookupT k (quantizeParams args sd).1 =
      some (quantizeTensor args.quant_method v
        (if "running".data <:+: k.data then args.bn_bits else args.param_bits)
        args.overflow_rate) := by
  unfold quantizeParams
  rw [if_pos hp, lookupT_quantizeLoop args sd k v hnd hmem]
  by_cases hr : "running".data <:+: k.data
  · have hik : isRunning k = true := decide_eq_true hr
    rw [if_pos hr]
    by_cases hbn : 32 ≤ args.bn_bits
    · rw [quantStep_skip args k v hik hbn, quantizeTensor_bypass _ _ _ _ hbn]
    · have hb : entryBits args k < 32 := by
        unfold entryBits
        rw [hik]
        simpa using by omega
      rw [quantStep_of_bits_lt args k v hb]
      unfold entryBits
      rw [hik]
      simp
  · have hik : isRunning k = false := decide_eq_false hr
    have hb : entryBits args k < 32 := by
      unfold entryBits
      rw [hik]
      simpa using hp
    rw [if_neg hr, quantStep_of_bits_lt args k v hb]
    unfold entryBits
    rw [hik]
    simp

/-- Concrete instance of claim C2 on a running-statistic entry. -/
theorem running_substring_selects_bn_bits_witness :
    lookupT "bn.running_mean"
        (quantizeParams ⟨QuantMethod.linear, 6, 8, 32, 0, 20⟩
          [("bn.running_mean", [1/3])]).1 =
      some (quantizeTensor QuantMethod.linear [1/3]
        (if "running".data <:+: "bn.running_mean".data then 8 else 6) 0) :=
  running_substring_selects_bn_bits ⟨QuantMethod.linear, 6, 8, 32, 0, 20⟩
    [("bn.running_mean", [1/3])] "bn.running_mean" [1/3] (by decide)
    (by with_unfolding_all decide) (by decide)

/-- Claim C5, as stated, is false on the code: an entry whose class has a
configured bit-width of 32 or more is indeed left unchanged, but when that
class is the regular one (`param_bits ≥ 32`) the whole pass is skipped and
no log event naming the skipped entry is emitted. -/
theorem skip_not_always_logged :
    ¬ (∀ (args : QuantArgs) (sd : List (String × Tensor)) (k : String) (v : Tensor),
        (sd.map Prod.fst).Nodup → (k, v) ∈ sd → 32 ≤ entryBits args k →
        lookupT k (quantizeParams args sd).1 = some v ∧
          LogEvent.ignoring k ∈ (quantizeParams args sd).2) := by
  intro h
  exact absurd
    (h ⟨QuantMethod.linear, 32, 32, 32, 0, 20⟩ [("weight", [1/3])] "weight" [1/3]
      (by decide) (by with_unfolding_all decide) (by decide)).2
    (by with_unfolding_all decide)

/-- Claim C5 (amended): within the parameter pass (`param_bits < 32`), an
entry whose class has a configured bit-width of 32 or more — necessarily a
running statistic — is copied unchanged into the output map and the skip is
reported by an `Ignoring` event naming the entry; with `param_bits ≥ 32`
the map passes through unchanged but no per-entry event is emitted. -/
theorem running_skip_copied_and_logged (args : QuantArgs) (sd : List (String × Tensor))
    (k : String) (v : Tensor) (hnd : (sd.map Prod.fst).Nodup) (hmem : (k, v) ∈ sd)
    (hp : args.param_bits < 32) (hb : 32 ≤ entryBits args k) :
    lookupT k (quantizeParams args sd).1 = some v ∧
      LogEvent.ignoring k ∈ (quantizeParams args sd).2 := by
  have hik : isRunning k = true := by
    cases hik0 : isRunning k with
    | true => rfl
    | false =>
      unfold entryBits at hb
      rw [hik0] at hb
      simp at hb
      omega
  have hbn : 32 ≤ args.bn_bits := by
    unfold entryBits at hb
    rwa [hik, if_pos rfl] at hb
  unfold quantizeParams
  rw [if_pos hp]
  constructor
  · rw [lookupT_quantizeLoop args sd k v hnd hmem, quantStep_skip args k v hik hbn]
  · refine quantStep_events_sub args sd k v hmem _ ?_
    rw [quantStep_skip args k v hik hbn]
    exact List.mem_singleton.mpr rfl

/-- Concrete instance of the amended claim C5. -/
theorem running_skip_copied_and_logged_witness :
    lookupT "features.bn1.running_var"
        (quantizeParams ⟨QuantMethod.minmax, 8, 32, 32, 0, 20⟩
          [("features.bn1.running_var", [2])]).1 = some [2] ∧
      LogEvent.ignoring "features.bn1.running_var" ∈
        (quantizeParams ⟨QuantMethod.minmax, 8, 32, 32, 0, 20⟩
          [("features.bn1.running_var", [2])]).2 :=
  running_skip_copied_and_logged ⟨QuantMethod.minmax, 8, 32, 32, 0, 20⟩
    [("features.bn1.running_var", [2])] "features.bn1.running_var" [2]
    (by decide) (by with_unfolding_all decide) (by decide) (by decide)

/-- Claim C6: for the linear method, each quantized entry's scale factor is
`bits - 1 - integer_bits` with `integer_bits` the range estimator's result
on the entry's tensor at the configured overflow rate, and the tensor is
linearly quantized with exactly that scale factor and bit-width. -/
theorem linear_uses_range_estimator_sf (args : QuantArgs) (sd : List (String × Tensor))
    (k : String) (v : Tensor) (hnd : (sd.map Prod.fst).Nodup) (hmem : (k, v) ∈ sd)
    (hp : args.param_bits < 32) (hm : args.quant_method = QuantMethod.linear)
    (hb : entryBits args k < 32) :
    lookupT k (quantizeParams args sd).1 =
      some (linear_quantize v
        (entryBits args k - 1 - compute_integral_part v args.overflow_rate)
        (entryBits args k)) := by
  unfold quantizeParams
  rw [if_pos hp, lookupT_quantizeLoop args sd k v hnd hmem,
    quantStep_of_bits_lt args k v hb, hm]
  rfl

/-- Concrete instance of claim C6. -/
theorem linear_uses_range_estimator_sf_witness :
    lookupT "conv1.weight"
        (quantizeParams ⟨QuantMethod.linear, 8, 32, 32, 0, 20⟩
          [("conv1.weight", [1/3])]).1 =
      some (linear_quantize [1/3]
        (entryBits ⟨QuantMethod.linear, 8, 32, 32, 0, 20⟩ "conv1.weight" - 1 -
          compute_integral_part [1/3] 0)
        (entryBits ⟨QuantMethod.linear, 8, 32, 32, 0, 20⟩ "conv1.weight")) :=
  linear_uses_range_estimator_sf ⟨QuantMethod.linear, 8, 32, 32, 0, 20⟩
    [("conv1.weight", [1/3])] "conv1.weight" [1/3] (by decide)
    (by with_unfolding_all decide) (by decide) rfl (by with_unfolding_all decide)

/-- Claim C7: `create_filename_hash_suffix` deterministically returns the
first 12 hexadecimal characters of the SHA-256 digest of its input; on
`"abc"` it yields the first 12 hex characters of the published SHA-256
digest `ba7816bf8f01cfea...`. -/
theorem hash_suffix_is_first12_sha256 :
    create_filename_hash_suffix "abc" = "ba7816bf8f01" ∧
      (∀ content : String,
        (create_filename_hash_suffix content).data =
          (sha256_hexdigest (utf8Encode content)).data.take 12) ∧
      (∀ type content : String,
        quantizedModelName type content =
          type ++ "-quantized-" ++ create_filename_hash_suffix content ++ ".pth") :=
  ⟨by decide, fun _ => rfl, fun _ _ => rfl⟩

/-- Claim C8, as stated, is false on the code: a bit-width of 0 or less and
an overflow rate outside `[0, 1]` do not make the program fail fast — the
only configuration check the driver performs is the method-name assert. -/
theorem invalid_numeric_config_not_rejected :
    ¬ (∀ (method : String) (pb : ℤ) (r : ℚ),
        (validMethodNames.contains method = false ∨ pb ≤ 0 ∨ r < 0 ∨ 1 < r) →
        methodAssertPasses method = false) := by
  intro h
  exact absurd (h "linear" 0 2 (Or.inr (Or.inl le_rfl))) (by decide)

/-- Claim C8 (amended): only an unknown quantization method name fails
fast (the startup assert); a bit-width of 0 or less and an overflow rate
outside `[0, 1]` pass validation and flow into the quantization pass,
which performs tensor work with them. -/
theorem unknown_method_only_fail_fast (method : String)
    (hm : validMethodNames.contains method = false) :
    methodAssertPasses method = false ∧
      (quantizeParams ⟨QuantMethod.linear, 0, 32, 8, 2, 20⟩ [("weight", [1/3])]).1 ≠
        [("weight", [1/3])] :=
  ⟨hm, by with_unfolding_all decide⟩

/-- Concrete instance of the amended claim C8. -/
theorem unknown_method_only_fail_fast_witness :
    methodAssertPasses "bogus" = false ∧
      (quantizeParams ⟨QuantMethod.linear, 0, 32, 8, 2, 20⟩ [("weight", [1/3])]).1 ≠
        [("weight", [1/3])] :=
  unknown_method_only_fail_fast "bogus" (by decide)

/-- Claim C9: a model type name containing the substring `inception`
forces the input size used for every dataset fetch to 299, overriding the
user-supplied value. -/
theorem inception_forces_input_299 (type : String) (input_size fwd_bits : ℤ)
    (h : "inception".data <:+: type.data) :
    resolveInputSize type input_size = 299 ∧
      ∀ s ∈ datasetFetchSizes type input_size fwd_bits, s = 299 := by
  have h1 : resolveInputSize type input_size = 299 := by
    unfold resolveInputSize
    rw [if_pos h]
  refine ⟨h1, ?_⟩
  intro s hs
  unfold datasetFetchSizes at hs
  rw [h1] at hs
  rcases List.mem_append.mp hs with hs1 | hs1
  · by_cases hf : fwd_bits < 32
    · rw [if_pos hf] at hs1
      exact (List.mem_singleton.mp hs1)
    · rw [if_neg hf] at hs1
      cases hs1
  · exact (List.mem_singleton.mp hs1)

/-- Concrete instance of claim C9. -/
theorem inception_forces_input_299_witness :
    resolveInputSize "inception_v3" 224 = 299 ∧
      ∀ s ∈ datasetFetchSizes "inception_v3" 224 8, s = 299 :=
  inception_forces_input_299 "inception_v3" 224 8 (by decide)

/-- Claim C10: every completed run appends exactly one record line — the
run descriptor plus either the checkpoint path or `"not saved"` — while
the checkpoint itself is produced only when the save flag is set. -/
theorem run_record_single_line (model_root type res_str : String) (save : Bool) :
    (finalizeRun model_root type res_str save).2 =
      [res_str ++ ", " ++
        (if save then quantizedModelPath model_root type res_str else "not saved") ++
        "\n"] ∧
      ((finalizeRun model_root type res_str save).1 =
        some (quantizedModelPath model_root type res_str) ↔ save = true) := by
  cases save <;> simp [finalizeRun, recordLine]
